import Mathlib

/-!
Verification development for a SQLite-backed data-access layer
(`src/backend/services/data_access_layer.py`).

The embedding models:
  * the two stores (reports / prompt templates) as in-memory tables,
  * wall-clock time as a counter ticked on each fresh connection
    (`CURRENT_TIMESTAMP` reads the current counter),
  * directory provisioning and fault injection through an environment
    record (`mkdirFails` models `os.makedirs` raising, `execFails`
    models an I/O failure inside the `try` block of `_execute_query`),
  * the generic query helper `_execute_query` and each repository
    method as explicit state-passing functions, and
  * a fragment of Python `json.dumps` / `json.loads` restricted to flat
    objects of integers and strings (the metadata shapes this layer
    stores); a top-level non-object JSON value is kept distinct so that
    `dict.update` failing on it is modelled faithfully.
-/

/-- SQL cell values as surfaced by a cursor row. -/
inductive Val
  | null
  | int (n : Int)
  | text (s : String)
deriving DecidableEq, Repr

/-- A cursor result row (`aiosqlite.Row`, positional view). -/
abbrev Row := List Val

/-- The union of values `_execute_query` can return: Python `None`, an
`int` (last insert rowid), a single row, or a list of rows. -/
inductive PyVal
  | none
  | int (n : Int)
  | row (r : Row)
  | rows (rs : List Row)
deriving DecidableEq, Repr

/-- JSON scalar values appearing in report metadata. -/
inductive JVal
  | num (n : Int)
  | str (s : String)
deriving DecidableEq, Repr

/-- A Python dict as an insertion-ordered association list. -/
abbrev JObj := List (String × JVal)

/-- A parsed top-level JSON document: an object, or a bare scalar
(`json.loads` also accepts the latter; `dict.update` then fails). -/
inductive PyJSON
  | obj (o : JObj)
  | lit (v : JVal)
deriving DecidableEq, Repr

/-- A row of the `reports` table. -/
structure ReportRow where
  id : Int
  original_filename : String
  content : Option String
  source_path : String
  processed_at : Int
  status : String
  metadata : Option String
  analysis_json : Option String
deriving DecidableEq, Repr

/-- A row of the `prompt_templates` table. -/
structure PromptRow where
  id : Int
  name : String
  template_text : String
  category : Option String
  created_at : Int
  updated_at : Int
deriving DecidableEq, Repr

/-- Which of the two store files a call targets. -/
inductive Which
  | reports
  | prompts
deriving DecidableEq, Repr

/-- Global state: both tables, their auto-increment counters, whether
each store's parent directory exists, and the clock. -/
structure DBState where
  reports : List ReportRow
  nextReportId : Int
  prompts : List PromptRow
  nextPromptId : Int
  reportsDirExists : Bool
  promptsDirExists : Bool
  now : Int
deriving DecidableEq, Repr

/-- Static environment: the `os.path.dirname` of each store path (the
empty string models a path with no directory component), plus fault
injection for `os.makedirs` and for statement execution. -/
structure Env where
  reportsDirName : String
  promptsDirName : String
  mkdirFails : Bool
  execFails : Bool
deriving DecidableEq, Repr

/-- The two classes of raised errors a DAL call can produce. -/
inductive DalError
  | dirError
  | queryError
deriving DecidableEq, Repr

def dirNameOf (env : Env) (w : Which) : String :=
  match w with
  | .reports => env.reportsDirName
  | .prompts => env.promptsDirName

def dirExistsOf (st : DBState) (w : Which) : Bool :=
  match w with
  | .reports => st.reportsDirExists
  | .prompts => st.promptsDirExists

def setDirExists (st : DBState) (w : Which) : DBState :=
  match w with
  | .reports => { st with reportsDirExists := true }
  | .prompts => { st with promptsDirExists := true }

/-! ### JSON fragment (`json.dumps` / `json.loads` on flat objects) -/

def lbrace : String := "\x7b"
def rbrace : String := "\x7d"
def lbraceChar : Char := Char.ofNat 123
def rbraceChar : Char := Char.ofNat 125

/-- Escape a character sequence the way `json.dumps` does for the
characters this fragment admits (backslash and double quote). -/
def escapeChars (cs : List Char) : List Char :=
  cs.foldr (fun c acc =>
    if c = '\\' then '\\' :: '\\' :: acc
    else if c = '"' then '\\' :: '"' :: acc
    else c :: acc) []

def escapeJSON (s : String) : String :=
  String.mk (escapeChars s.toList)

def dumpJVal : JVal → String
  | .num n => toString n
  | .str s => "\"" ++ escapeJSON s ++ "\""

/-- `json.dumps(o, ensure_ascii=False)` with the default separators
`", "` and `": "`. -/
def dumps (o : JObj) : String :=
  lbrace ++
    String.intercalate ", "
      (o.map (fun kv => "\"" ++ escapeJSON kv.1 ++ "\": " ++ dumpJVal kv.2)) ++
  rbrace

/-- Python dict insertion: replace the value in place if the key is
present, else append the pair. -/
def insertKey (o : JObj) (k : String) (v : JVal) : JObj :=
  if o.any (fun kv => kv.1 = k) then
    o.map (fun kv => if kv.1 = k then (k, v) else kv)
  else o ++ [(k, v)]

/-- Python `base.update(upd)`: existing keys keep their position and
get the new value, new keys are appended in `upd` order. -/
def pyUpdate (base upd : JObj) : JObj :=
  upd.foldl (fun acc kv => insertKey acc kv.1 kv.2) base

def isWS (c : Char) : Bool :=
  c = ' ' ∨ c = '\t' ∨ c = '\n' ∨ c = '\r'

def skipWS : List Char → List Char
  | [] => []
  | c :: cs => if isWS c then skipWS cs else c :: cs

/-- Parse the body of a JSON string after the opening quote, handling
the escapes `\"` and `\\`; returns the contents and the remainder. -/
def parseStrChars : List Char → Option (List Char × List Char)
  | [] => Option.none
  | '"' :: cs => some ([], cs)
  | '\\' :: c :: cs =>
    if c = '"' ∨ c = '\\' then
      match parseStrChars cs with
      | some (s, rest) => some (c :: s, rest)
      | Option.none => Option.none
    else Option.none
  | c :: cs =>
    if c = '\\' then Option.none
    else
      match parseStrChars cs with
      | some (s, rest) => some (c :: s, rest)
      | Option.none => Option.none

def takeDigits : List Char → (List Char × List Char)
  | [] => ([], [])
  | c :: cs =>
    if c.isDigit then
      let (ds, rest) := takeDigits cs
      (c :: ds, rest)
    else ([], c :: cs)

def digitsToNat (ds : List Char) : Nat :=
  ds.foldl (fun acc c => acc * 10 + (c.toNat - '0'.toNat)) 0

/-- Parse one JSON scalar (integer or string). -/
def parseJVal : List Char → Option (JVal × List Char)
  | [] => Option.none
  | '"' :: cs =>
    match parseStrChars cs with
    | some (s, rest) => some (.str (String.mk s), rest)
    | Option.none => Option.none
  | '-' :: cs =>
    match takeDigits cs with
    | ([], _) => Option.none
    | (ds, rest) => some (.num (-(digitsToNat ds : Int)), rest)
  | c :: cs =>
    if c.isDigit then
      let (ds, rest) := takeDigits (c :: cs)
      some (.num (digitsToNat ds : Int), rest)
    else Option.none

/-- Parse `"key": value` then either `, members` or the closing brace.
Fuelled recursion; `acc` carries Python dict insertion semantics. -/
def parseMembers : Nat → JObj → List Char → Option (JObj × List Char)
  | 0, _, _ => Option.none
  | fuel + 1, acc, cs =>
    match skipWS cs with
    | '"' :: cs₁ =>
      match parseStrChars cs₁ with
      | Option.none => Option.none
      | some (k, cs₂) =>
        match skipWS cs₂ with
        | ':' :: cs₃ =>
          match parseJVal (skipWS cs₃) with
          | Option.none => Option.none
          | some (v, cs₄) =>
            match skipWS cs₄ with
            | ',' :: cs₅ => parseMembers fuel (insertKey acc (String.mk k) v) cs₅
            | c :: cs₅ =>
              if c = rbraceChar then some (insertKey acc (String.mk k) v, cs₅)
              else Option.none
            | [] => Option.none
        | _ => Option.none
    | _ => Option.none

/-- Parse a top-level JSON document restricted to this fragment: a flat
object of string/integer values, or a bare scalar. -/
def parseTop (cs : List Char) : Option (PyJSON × List Char) :=
  match skipWS cs with
  | [] => Option.none
  | c :: cs₁ =>
    if c = lbraceChar then
      match skipWS cs₁ with
      | c₂ :: cs₂ =>
        if c₂ = rbraceChar then some (.obj [], cs₂)
        else
          match parseMembers (cs₁.length + 1) [] cs₁ with
          | some (o, rest) => some (.obj o, rest)
          | Option.none => Option.none
      | [] => Option.none
    else
      match parseJVal (c :: cs₁) with
      | some (v, rest) => some (.lit v, rest)
      | Option.none => Option.none

/-- `json.loads`: the whole input must be one document plus trailing
whitespace. -/
def loads (s : String) : Option PyJSON :=
  match parseTop s.toList with
  | some (d, rest) => if skipWS rest = [] then some d else Option.none
  | Option.none => Option.none

/-! ### Statements and the query executor (`_execute_query`) -/

/-- The parameterized statements the repository methods build and pass
to `_execute_query`, together with their bound parameters. -/
inductive Stmt
  | insertReport (original_filename : String) (content : Option String)
      (source_path : String) (metadata_str : Option String) (status : String)
  | updateStatus (status : String) (content : Option String) (report_id : Int)
  | updateAnalysis (analysis_data : String) (status : String) (report_id : Int)
  | updateMetadata (metadata_str : String) (report_id : Int)
  | selectExists (source_path : String)
  | insertPrompt (name : String) (template_text : String) (category : Option String)
deriving DecidableEq, Repr

/-- The SQL text each statement corresponds to in the source (for
`updateStatus` the text depends on whether a content value is bound,
mirroring the dynamically built field list). -/
def stmtSQL : Stmt → String
  | .insertReport _ _ _ _ _ =>
    "INSERT INTO reports (original_filename, content, source_path, metadata, status) VALUES (?, ?, ?, ?, ?)"
  | .updateStatus _ (some _) _ =>
    "UPDATE reports SET status = ?, content = ?, processed_at = CURRENT_TIMESTAMP WHERE id = ?"
  | .updateStatus _ Option.none _ =>
    "UPDATE reports SET status = ?, processed_at = CURRENT_TIMESTAMP WHERE id = ?"
  | .updateAnalysis _ _ _ =>
    "UPDATE reports SET analysis_json = ?, status = ?, processed_at = CURRENT_TIMESTAMP WHERE id = ?"
  | .updateMetadata _ _ =>
    "UPDATE reports SET metadata = ?, processed_at = CURRENT_TIMESTAMP WHERE id = ?"
  | .selectExists _ =>
    "SELECT 1 FROM reports WHERE source_path = ? LIMIT 1"
  | .insertPrompt _ _ _ =>
    "INSERT INTO prompt_templates (name, template_text, category) VALUES (?, ?, ?)"

/-- The store file each statement's table lives in. -/
def stmtWhich : Stmt → Which
  | .insertPrompt _ _ _ => .prompts
  | _ => .reports

/-- ASCII uppercasing, as Python `str.upper` acts on the SQL text this
layer builds. -/
def upperChar (c : Char) : Char :=
  if 'a' ≤ c ∧ c ≤ 'z' then Char.ofNat (c.toNat - 32) else c

/-- Python `str.strip`: drop whitespace from both ends. -/
def trimChars (cs : List Char) : List Char :=
  (skipWS (skipWS cs.reverse).reverse)

def startsWithChars : List Char → List Char → Bool
  | _, [] => true
  | [], _ :: _ => false
  | c :: cs, p :: ps => c = p && startsWithChars cs ps

/-- The `query.strip().upper().startswith("INSERT")` test of line 71. -/
def isInsertSQL (sql : String) : Bool :=
  startsWithChars ((trimChars sql.toList).map upperChar) "INSERT".toList

/-- Outcome of executing one statement on an open connection: the
updated database image, the connection's last-insert rowid, and the
result rows of the cursor. -/
structure StmtOut where
  st : DBState
  lastId : Option Int
  rows : List Row
deriving DecidableEq, Repr

/-- Executing one statement against the engine. `CURRENT_TIMESTAMP`
reads the state's clock; inserting a prompt with a duplicate name
violates the UNIQUE constraint; addressing a statement at the wrong
store fails with the engine's missing-table error. -/
def runStmt (st : DBState) (w : Which) (stmt : Stmt) : Except String StmtOut :=
  if stmtWhich stmt ≠ w then .error "no such table"
  else
    match stmt with
    | .insertReport ofn content sp md status =>
      let rid := st.nextReportId
      let row : ReportRow :=
        { id := rid, original_filename := ofn, content := content,
          source_path := sp, processed_at := st.now, status := status,
          metadata := md, analysis_json := Option.none }
      .ok { st := { st with reports := st.reports ++ [row], nextReportId := rid + 1 },
            lastId := some rid, rows := [] }
    | .updateStatus status content rid =>
      .ok { st := { st with reports := st.reports.map (fun r =>
              if r.id = rid then
                { r with status := status,
                         content := match content with
                                    | some c => some c
                                    | Option.none => r.content,
                         processed_at := st.now }
              else r) },
            lastId := Option.none, rows := [] }
    | .updateAnalysis aj status rid =>
      .ok { st := { st with reports := st.reports.map (fun r =>
              if r.id = rid then
                { r with analysis_json := some aj, status := status,
                         processed_at := st.now }
              else r) },
            lastId := Option.none, rows := [] }
    | .updateMetadata md rid =>
      .ok { st := { st with reports := st.reports.map (fun r =>
              if r.id = rid then
                { r with metadata := some md, processed_at := st.now }
              else r) },
            lastId := Option.none, rows := [] }
    | .selectExists sp =>
      .ok { st := st, lastId := Option.none,
            rows := if st.reports.any (fun r => r.source_path = sp) then [[Val.int 1]] else [] }
    | .insertPrompt name tt cat =>
      if st.prompts.any (fun p => p.name = name) then
        .error "UNIQUE constraint failed: prompt_templates.name"
      else
        let pid := st.nextPromptId
        let row : PromptRow :=
          { id := pid, name := name, template_text := tt, category := cat,
            created_at := st.now, updated_at := st.now }
        .ok { st := { st with prompts := st.prompts ++ [row], nextPromptId := pid + 1 },
              lastId := some pid, rows := [] }

/-- The `try` block of `_execute_query` (lines 65-94): open a fresh
connection (ticking the clock), execute, then dispatch on the
`commit` / `fetch_one` / `fetch_all` flags exactly as the source does.
A connection closed without commit rolls its changes back, so the
non-commit branches keep the pre-statement image. Any failure inside
is logged and re-raised (`queryError`). -/
def execQueryConn (env : Env) (st : DBState) (w : Which) (stmt : Stmt)
    (fetch_one fetch_all commit : Bool) : DBState × Except DalError PyVal :=
  if env.execFails then (st, .error .queryError)
  else
    let stc := { st with now := st.now + 1 }
    match runStmt stc w stmt with
    | .error _ => (st, .error .queryError)
    | .ok out =>
      if commit then
        (out.st, .ok (if isInsertSQL (stmtSQL stmt) then
            match out.lastId with
            | some i => PyVal.int i
            | Option.none => PyVal.none
          else PyVal.none))
      else if fetch_one then
        (stc, .ok (match out.rows.head? with
          | some r => PyVal.row r
          | Option.none => PyVal.none))
      else if fetch_all then (stc, .ok (PyVal.rows out.rows))
      else (stc, .ok PyVal.none)

/-- `_execute_query` (lines 30-94): provision the store's parent
directory if the path has one and it is absent (a `makedirs` failure is
re-raised at once, before any store access), then run the connection
body. -/
def execQuery (env : Env) (st : DBState) (w : Which) (stmt : Stmt)
    (fetch_one fetch_all commit : Bool) : DBState × Except DalError PyVal :=
  if dirNameOf env w ≠ "" ∧ dirExistsOf st w = false then
    if env.mkdirFails then (st, .error .dirError)
    else execQueryConn env (setDirExists st w) w stmt fetch_one fetch_all commit
  else execQueryConn env st w stmt fetch_one fetch_all commit

/-- The state after `_execute_query`'s directory-provisioning step
has succeeded (used to state the executor's contract). -/
def provisionedState (env : Env) (st : DBState) (w : Which) : DBState :=
  if dirNameOf env w ≠ "" ∧ dirExistsOf st w = false then setDirExists st w else st

/-- The state right after a successful directory check and connection
acquisition inside `_execute_query`. -/
def afterConnect (env : Env) (st : DBState) (w : Which) : DBState :=
  { provisionedState env st w with now := (provisionedState env st w).now + 1 }

/-! ### Report repository -/

/-- Python truthiness of the optional metadata dict: `None` and the
empty dict are falsy, so `json.dumps(metadata) if metadata else None`
serializes only nonempty dicts (line 159). -/
def metadataStrOf (metadata : Option JObj) : Option String :=
  match metadata with
  | some m => if m.isEmpty then Option.none else some (dumps m)
  | Option.none => Option.none

/-- `insert_report_data` (lines 143-176): serialize metadata, insert
through the executor with `commit=True`, return the new id; any raised
error (directory or execution) is caught and degraded to `None`. -/
def insert_report_data (env : Env) (st : DBState) (original_filename : String)
    (content : Option String) (source_path : String) (metadata : Option JObj)
    (status : String) : DBState × Option Int :=
  let metadata_str := metadataStrOf metadata
  let (st', r) := execQuery env st .reports
    (.insertReport original_filename content source_path metadata_str status)
    false false true
  match r with
  | .ok (PyVal.int i) => (st', some i)
  | .ok _ => (st', Option.none)
  | .error _ => (st', Option.none)

/-- `get_report_by_id` (lines 178-204): opens its own connection
directly (NOT through `_execute_query`), so a missing parent directory
is not provisioned — the connect raises and the `except` returns
`None`. On success returns the full row, metadata left serialized. -/
def get_report_by_id (env : Env) (st : DBState) (report_id : Int) :
    DBState × Option ReportRow :=
  if dirNameOf env .reports ≠ "" ∧ st.reportsDirExists = false then (st, Option.none)
  else if env.execFails then (st, Option.none)
  else
    let stc := { st with now := st.now + 1 }
    (stc, stc.reports.find? (fun r => r.id = report_id))

/-- `update_report_status` (lines 207-239): build the field list
(content only when supplied), run with `commit=True`; `True` on
success, any raised error degrades to `False`. -/
def update_report_status (env : Env) (st : DBState) (report_id : Int)
    (status : String) (processed_content : Option String) : DBState × Bool :=
  let (st', r) := execQuery env st .reports
    (.updateStatus status processed_content report_id) false false true
  match r with
  | .ok _ => (st', true)
  | .error _ => (st', false)

/-- `update_report_analysis` (lines 241-267). -/
def update_report_analysis (env : Env) (st : DBState) (report_id : Int)
    (analysis_data : String) (status : String) : DBState × Bool :=
  let (st', r) := execQuery env st .reports
    (.updateAnalysis analysis_data status report_id) false false true
  match r with
  | .ok _ => (st', true)
  | .error _ => (st', false)

/-- The distinct outcomes of `update_report_metadata`; the function
returns `False` for every constructor except `ok`, but the failure
branches log distinct classifications. `updateFailed` covers the
generic `except Exception` branch (line 298): a raised database error,
or `dict.update` failing because the stored JSON is not an object. -/
inductive MetaResult
  | ok
  | notFound
  | malformedMetadata
  | updateFailed
deriving DecidableEq, Repr

/-- The boolean actually returned to the caller. -/
def MetaResult.toBool : MetaResult → Bool
  | .ok => true
  | _ => false

/-- `update_report_metadata` (lines 269-303): read the current record
via `get_report_by_id` (absent → `False`, "not found"); deserialize the
stored metadata (`json.loads(s) if s else` the empty dict), a decode
failure → `False` with the distinct malformed classification;
`dict.update` the partial update over it (a non-object document makes
`update` raise into the generic branch); re-serialize and write back
through the executor with `commit=True`. -/
def update_report_metadata (env : Env) (st : DBState) (report_id : Int)
    (metadata_update : JObj) : DBState × MetaResult :=
  let (st₁, cur) := get_report_by_id env st report_id
  match cur with
  | Option.none => (st₁, .notFound)
  | some current_report =>
    let parsed : Option PyJSON :=
      match current_report.metadata with
      | some s => if s = "" then some (.obj []) else loads s
      | Option.none => some (.obj [])
    match parsed with
    | Option.none => (st₁, .malformedMetadata)
    | some (.lit _) => (st₁, .updateFailed)
    | some (.obj current_metadata) =>
      let new_metadata_str := dumps (pyUpdate current_metadata metadata_update)
      let (st₂, r) := execQuery env st₁ .reports
        (.updateMetadata new_metadata_str report_id) false false true
      match r with
      | .ok _ => (st₂, .ok)
      | .error _ => (st₂, .updateFailed)

/-- `check_report_exists_by_source_path` (lines 305-323): a
`fetch_one` executor call; `result is not None` on success, any raised
error degrades to `False`. -/
def check_report_exists_by_source_path (env : Env) (st : DBState)
    (source_path : String) : DBState × Bool :=
  let (st', r) := execQuery env st .reports (.selectExists source_path)
    true false false
  match r with
  | .ok v => (st', match v with
      | PyVal.none => false
      | _ => true)
  | .error _ => (st', false)

/-! ### Prompt repository -/

/-- `insert_prompt_template` (lines 325-351): same shape as
`insert_report_data`; a UNIQUE-name violation is re-raised by the
executor and degraded to `None` here. -/
def insert_prompt_template (env : Env) (st : DBState) (name : String)
    (template_text : String) (category : Option String) : DBState × Option Int :=
  let (st', r) := execQuery env st .prompts
    (.insertPrompt name template_text category) false false true
  match r with
  | .ok (PyVal.int i) => (st', some i)
  | .ok _ => (st', Option.none)
  | .error _ => (st', Option.none)

/-- `get_prompt_template_by_name` (lines 359-382): direct connection,
not through the executor; errors degrade to `None`. -/
def get_prompt_template_by_name (env : Env) (st : DBState) (name : String) :
    DBState × Option PromptRow :=
  if dirNameOf env .prompts ≠ "" ∧ st.promptsDirExists = false then (st, Option.none)
  else if env.execFails then (st, Option.none)
  else
    let stc := { st with now := st.now + 1 }
    (stc, stc.prompts.find? (fun p => p.name = name))

/-- The subset of fields `get_all_prompt_templates` selects. -/
structure PromptListItem where
  id : Int
  name : String
  category : Option String
  updated_at : Int
deriving DecidableEq, Repr

def PromptRow.toListItem (p : PromptRow) : PromptListItem :=
  { id := p.id, name := p.name, category := p.category, updated_at := p.updated_at }

/-- Stable insertion of a row into a list sorted by `updated_at`
descending (models `ORDER BY updated_at DESC`). -/
def insertByUpdatedDesc (p : PromptRow) : List PromptRow → List PromptRow
  | [] => [p]
  | q :: qs =>
    if q.updated_at < p.updated_at then p :: q :: qs
    else q :: insertByUpdatedDesc p qs

def sortByUpdatedDesc : List PromptRow → List PromptRow
  | [] => []
  | p :: ps => insertByUpdatedDesc p (sortByUpdatedDesc ps)

/-- `get_all_prompt_templates` (lines 384-409): direct connection, not
through the executor; `ORDER BY updated_at DESC LIMIT ? OFFSET ?`
projected to the four selected fields; errors degrade to `[]`. -/
def get_all_prompt_templates (env : Env) (st : DBState) (limit offset : Nat) :
    DBState × List PromptListItem :=
  if dirNameOf env .prompts ≠ "" ∧ st.promptsDirExists = false then (st, [])
  else if env.execFails then (st, [])
  else
    let stc := { st with now := st.now + 1 }
    (stc, (((sortByUpdatedDesc stc.prompts).drop offset).take limit).map PromptRow.toListItem)

/-! ### Fixtures used by witnesses and counterexamples -/

/-- A healthy environment: both store paths live in an existing-or-creatable
directory and no faults are injected. -/
def env0 : Env :=
  { reportsDirName := "data", promptsDirName := "data",
    mkdirFails := false, execFails := false }

/-- `env0` with statement execution failing (I/O fault). -/
def envExecFail : Env := { env0 with execFails := true }

/-- `env0` with `os.makedirs` failing. -/
def envMkdirFail : Env := { env0 with mkdirFails := true }

/-- Freshly initialized databases, directories present. -/
def st0 : DBState :=
  { reports := [], nextReportId := 1, prompts := [], nextPromptId := 1,
    reportsDirExists := true, promptsDirExists := true, now := 0 }

/-- One report inserted into `st0` with metadata `\x7b"a": 1, "b": 2\x7d`. -/
def stR1 : DBState :=
  (insert_report_data env0 st0 "f.docx" (some "body") "/in/f.docx"
    (some [("a", .num 1), ("b", .num 2)]) "parsed").1

/-- `st0` with both parent directories absent. -/
def stNoDir : DBState :=
  { st0 with reportsDirExists := false, promptsDirExists := false }

/-- `stR1` (one report present) but with both parent directories
absent. -/
def stNoDirR : DBState :=
  { stR1 with reportsDirExists := false, promptsDirExists := false }

/-- A state whose only report carries metadata text that is not valid
JSON. -/
def stBadMd : DBState :=
  { stR1 with reports :=
      [{ id := 1, original_filename := "f.docx", content := Option.none,
         source_path := "/p", processed_at := 1, status := "s",
         metadata := some "not json", analysis_json := Option.none }] }

/-- One report inserted into `st0` with no metadata (stored NULL). -/
def stRnoMd : DBState :=
  (insert_report_data env0 st0 "n.txt" Option.none "/in/n.txt" Option.none "s").1

/-- Five prompt templates inserted into `st0` at strictly increasing
times. -/
def stP5 : DBState :=
  (insert_prompt_template env0
    (insert_prompt_template env0
      (insert_prompt_template env0
        (insert_prompt_template env0
          (insert_prompt_template env0 st0 "p1" "t1" Option.none).1
          "p2" "t2" Option.none).1
        "p3" "t3" Option.none).1
      "p4" "t4" Option.none).1
    "p5" "t5" Option.none).1

/-! ### Helper lemmas about the executor -/

/-- The commit-branch return value of `_execute_query` (lines 68-76). -/
def commitVal (stmt : Stmt) (out : StmtOut) : PyVal :=
  if isInsertSQL (stmtSQL stmt) then
    match out.lastId with
    | some i => PyVal.int i
    | Option.none => PyVal.none
  else PyVal.none

/-- The `fetch_one` return value (lines 77-80). -/
def fetchOneVal (out : StmtOut) : PyVal :=
  match out.rows.head? with
  | some r => PyVal.row r
  | Option.none => PyVal.none

theorem execQuery_provision (env : Env) (st : DBState) (w : Which) (stmt : Stmt)
    (f1 f2 c : Bool)
    (hdir : env.mkdirFails = false ∨ dirExistsOf st w = true ∨ dirNameOf env w = "") :
    execQuery env st w stmt f1 f2 c =
      execQueryConn env (provisionedState env st w) w stmt f1 f2 c := by
  by_cases h : dirNameOf env w ≠ "" ∧ dirExistsOf st w = false
  · have hmk : env.mkdirFails = false := by
      rcases hdir with hmk | hex | hnm
      · exact hmk
      · exact absurd hex (by simp [h.2])
      · exact absurd hnm h.1
    simp [execQuery, provisionedState, h, hmk]
  · simp [execQuery, provisionedState, h]

theorem execQueryConn_ok (env : Env) (st : DBState) (w : Which) (stmt : Stmt)
    (f1 f2 c : Bool) (out : StmtOut)
    (hexec : env.execFails = false)
    (hrun : runStmt { st with now := st.now + 1 } w stmt = .ok out) :
    execQueryConn env st w stmt f1 f2 c =
      (if c then out.st else { st with now := st.now + 1 },
       .ok (if c then commitVal stmt out
            else if f1 then fetchOneVal out
            else if f2 then PyVal.rows out.rows
            else PyVal.none)) := by
  unfold execQueryConn
  rw [if_neg (by simp [hexec])]
  simp only [hrun]
  cases c <;> cases f1 <;> cases f2 <;> simp [commitVal, fetchOneVal]

theorem execQuery_ok (env : Env) (st : DBState) (w : Which) (stmt : Stmt)
    (f1 f2 c : Bool) (out : StmtOut)
    (hexec : env.execFails = false)
    (hdir : env.mkdirFails = false ∨ dirExistsOf st w = true ∨ dirNameOf env w = "")
    (hrun : runStmt (afterConnect env st w) w stmt = .ok out) :
    execQuery env st w stmt f1 f2 c =
      (if c then out.st else afterConnect env st w,
       .ok (if c then commitVal stmt out
            else if f1 then fetchOneVal out
            else if f2 then PyVal.rows out.rows
            else PyVal.none)) := by
  rw [execQuery_provision env st w stmt f1 f2 c hdir]
  exact execQueryConn_ok env (provisionedState env st w) w stmt f1 f2 c out hexec hrun

theorem execQuery_execFails (env : Env) (st : DBState) (w : Which) (stmt : Stmt)
    (f1 f2 c : Bool)
    (hexec : env.execFails = true)
    (hdir : env.mkdirFails = false ∨ dirExistsOf st w = true ∨ dirNameOf env w = "") :
    execQuery env st w stmt f1 f2 c = (provisionedState env st w, .error .queryError) := by
  rw [execQuery_provision env st w stmt f1 f2 c hdir]
  simp [execQueryConn, hexec]

theorem execQuery_runError (env : Env) (st : DBState) (w : Which) (stmt : Stmt)
    (f1 f2 c : Bool) (msg : String)
    (hexec : env.execFails = false)
    (hdir : env.mkdirFails = false ∨ dirExistsOf st w = true ∨ dirNameOf env w = "")
    (hrun : runStmt (afterConnect env st w) w stmt = .error msg) :
    execQuery env st w stmt f1 f2 c = (provisionedState env st w, .error .queryError) := by
  rw [execQuery_provision env st w stmt f1 f2 c hdir]
  unfold execQueryConn
  rw [if_neg (by simp [hexec])]
  simp only [afterConnect] at hrun
  simp only [hrun]

theorem execQuery_mkdirFails (env : Env) (st : DBState) (w : Which) (stmt : Stmt)
    (f1 f2 c : Bool)
    (hname : dirNameOf env w ≠ "") (habsent : dirExistsOf st w = false)
    (hmk : env.mkdirFails = true) :
    execQuery env st w stmt f1 f2 c = (st, .error .dirError) := by
  simp [execQuery, hname, habsent, hmk]

/-- A successful executor call certifies that no fault occurred: the
directory step did not raise, the connection opened, and the statement
ran. -/
theorem execQuery_ok_no_fault (env : Env) (st : DBState) (w : Which) (stmt : Stmt)
    (f1 f2 c : Bool) (st' : DBState) (v : PyVal)
    (h : execQuery env st w stmt f1 f2 c = (st', .ok v)) :
    env.execFails = false ∧ ∃ out, runStmt (afterConnect env st w) w stmt = .ok out := by
  unfold execQuery at h
  split at h
  case isTrue hcond =>
    split at h
    · simp at h
    · simp only [execQueryConn] at h
      split at h
      case isTrue => simp at h
      case isFalse hexec =>
        refine ⟨by simpa using hexec, ?_⟩
        split at h
        · simp at h
        case h_2 out heq =>
          refine ⟨out, ?_⟩
          have hac : afterConnect env st w =
              { setDirExists st w with now := (setDirExists st w).now + 1 } := by
            simp [afterConnect, provisionedState, if_pos hcond]
          rw [hac]
          exact heq
  case isFalse hcond =>
    simp only [execQueryConn] at h
    split at h
    case isTrue => simp at h
    case isFalse hexec =>
      refine ⟨by simpa using hexec, ?_⟩
      split at h
      · simp at h
      case h_2 out heq =>
        refine ⟨out, ?_⟩
        have hac : afterConnect env st w = { st with now := st.now + 1 } := by
          simp [afterConnect, provisionedState, if_neg hcond]
        rw [hac]
        exact heq

/-- Helper: the dynamic `startswith("INSERT")` test on the built SQL
text holds exactly for the two insert statements. -/
theorem isInsertSQL_iff (stmt : Stmt) :
    isInsertSQL (stmtSQL stmt) = true ↔
      (∃ a b c d e, stmt = .insertReport a b c d e) ∨
      (∃ a b c, stmt = .insertPrompt a b c) := by
  cases stmt with
  | insertReport a b c d e =>
    simp only [stmtSQL]
    constructor
    · intro _
      exact Or.inl ⟨a, b, c, d, e, rfl⟩
    · intro _
      decide
  | updateStatus s pc i =>
    cases pc <;> simp only [stmtSQL] <;>
      constructor <;> intro h <;> first
        | (exact absurd h (by decide))
        | (rcases h with ⟨_, _, _, _, _, h⟩ | ⟨_, _, _, h⟩ <;> exact absurd h (by simp))
  | updateAnalysis a s i =>
    simp only [stmtSQL]
    constructor
    · intro h
      exact absurd h (by decide)
    · rintro (⟨_, _, _, _, _, h⟩ | ⟨_, _, _, h⟩) <;> exact absurd h (by simp)
  | updateMetadata m i =>
    simp only [stmtSQL]
    constructor
    · intro h
      exact absurd h (by decide)
    · rintro (⟨_, _, _, _, _, h⟩ | ⟨_, _, _, h⟩) <;> exact absurd h (by simp)
  | selectExists sp =>
    simp only [stmtSQL]
    constructor
    · intro h
      exact absurd h (by decide)
    · rintro (⟨_, _, _, _, _, h⟩ | ⟨_, _, _, h⟩) <;> exact absurd h (by simp)
  | insertPrompt a b c =>
    simp only [stmtSQL]
    constructor
    · intro _
      exact Or.inr ⟨a, b, c, rfl⟩
    · intro _
      decide

/-- C1: for every successful `_execute_query` call: with `commit=True`
on an INSERT it commits and returns the last-assigned row id (the id of
the row just appended); with `commit=True` otherwise it returns no
value; with `fetch_one=True` it returns the first result row or the
absent marker; with `fetch_all=True` the full ordered row sequence
(empty if none); otherwise no value. -/
theorem C1_execute_query_dispatch
    (env : Env) (st : DBState) (w : Which) (stmt : Stmt) (out : StmtOut) (f1 f2 : Bool)
    (hexec : env.execFails = false)
    (hdir : env.mkdirFails = false ∨ dirExistsOf st w = true ∨ dirNameOf env w = "")
    (hrun : runStmt (afterConnect env st w) w stmt = .ok out) :
    (execQuery env st w stmt f1 f2 true =
      (out.st, .ok (if isInsertSQL (stmtSQL stmt) then
          match out.lastId with
          | some i => PyVal.int i
          | Option.none => PyVal.none
        else PyVal.none)))
    ∧ (execQuery env st w stmt true f2 false =
        (afterConnect env st w, .ok (match out.rows.head? with
          | some r => PyVal.row r
          | Option.none => PyVal.none)))
    ∧ (execQuery env st w stmt false true false =
        (afterConnect env st w, .ok (PyVal.rows out.rows)))
    ∧ (execQuery env st w stmt false false false =
        (afterConnect env st w, .ok PyVal.none))
    ∧ (isInsertSQL (stmtSQL stmt) = true ↔
        (∃ a b c d e, stmt = .insertReport a b c d e) ∨
        (∃ a b c, stmt = .insertPrompt a b c))
    ∧ (∀ a b c d e, stmt = .insertReport a b c d e →
        out.lastId = some (afterConnect env st w).nextReportId ∧
        out.st.reports.getLast? = some
          { id := (afterConnect env st w).nextReportId, original_filename := a,
            content := b, source_path := c,
            processed_at := (afterConnect env st w).now, status := e,
            metadata := d, analysis_json := Option.none })
    ∧ (∀ a b c, stmt = .insertPrompt a b c →
        out.lastId = some (afterConnect env st w).nextPromptId ∧
        out.st.prompts.getLast? = some
          { id := (afterConnect env st w).nextPromptId, name := a, template_text := b,
            category := c, created_at := (afterConnect env st w).now,
            updated_at := (afterConnect env st w).now }) := by
  refine ⟨?_, ?_, ?_, ?_, isInsertSQL_iff stmt, ?_, ?_⟩
  · have h := execQuery_ok env st w stmt f1 f2 true out hexec hdir hrun
    simpa [commitVal] using h
  · have h := execQuery_ok env st w stmt true f2 false out hexec hdir hrun
    simpa [fetchOneVal] using h
  · have h := execQuery_ok env st w stmt false true false out hexec hdir hrun
    simpa using h
  · have h := execQuery_ok env st w stmt false false false out hexec hdir hrun
    simpa using h
  · intro a b c d e heq
    subst heq
    cases w with
    | prompts => simp [runStmt, stmtWhich] at hrun
    | reports =>
      simp only [runStmt, stmtWhich] at hrun
      rw [if_neg (by simp)] at hrun
      have hout := Except.ok.inj hrun
      rw [← hout]
      exact ⟨rfl, by simp⟩
  · intro a b c heq
    subst heq
    cases w with
    | reports => simp [runStmt, stmtWhich] at hrun
    | prompts =>
      simp only [runStmt, stmtWhich] at hrun
      rw [if_neg (by simp)] at hrun
      split at hrun
      · exact absurd hrun (by simp)
      · have hout := Except.ok.inj hrun
        rw [← hout]
        exact ⟨rfl, by simp⟩

/-- Witness for C1 at a concrete insert. -/
theorem C1_execute_query_dispatch_witness :
    execQuery env0 st0 .reports
        (.insertReport "g.txt" Option.none "/in/g.txt" Option.none "pending")
        false false true =
      ({ reports := [{ id := 1, original_filename := "g.txt", content := Option.none,
                       source_path := "/in/g.txt", processed_at := 1, status := "pending",
                       metadata := Option.none, analysis_json := Option.none }],
         nextReportId := 2, prompts := [], nextPromptId := 1,
         reportsDirExists := true, promptsDirExists := true, now := 1 },
       .ok (PyVal.int 1)) := by
  have h := (C1_execute_query_dispatch env0 st0 .reports
    (.insertReport "g.txt" Option.none "/in/g.txt" Option.none "pending")
    { st := { reports := [{ id := 1, original_filename := "g.txt", content := Option.none,
                            source_path := "/in/g.txt", processed_at := 1, status := "pending",
                            metadata := Option.none, analysis_json := Option.none }],
              nextReportId := 2, prompts := [], nextPromptId := 1,
              reportsDirExists := true, promptsDirExists := true, now := 1 },
      lastId := some 1, rows := [] }
    false false rfl (Or.inl rfl) rfl).1
  rw [h]
  rfl

/-- Helper: a successfully executed statement never touches the
directory flags or the clock. -/
theorem runStmt_ok_state (st : DBState) (w : Which) (stmt : Stmt) (out : StmtOut)
    (h : runStmt st w stmt = .ok out) :
    out.st.reportsDirExists = st.reportsDirExists ∧
    out.st.promptsDirExists = st.promptsDirExists ∧
    out.st.now = st.now := by
  cases stmt with
  | insertReport a b c d e =>
    simp only [runStmt] at h
    split at h
    · exact absurd h (by simp)
    · injection h with h'
      rw [← h']
      exact ⟨rfl, rfl, rfl⟩
  | updateStatus s pc i =>
    simp only [runStmt] at h
    split at h
    · exact absurd h (by simp)
    · injection h with h'
      rw [← h']
      exact ⟨rfl, rfl, rfl⟩
  | updateAnalysis a s i =>
    simp only [runStmt] at h
    split at h
    · exact absurd h (by simp)
    · injection h with h'
      rw [← h']
      exact ⟨rfl, rfl, rfl⟩
  | updateMetadata m i =>
    simp only [runStmt] at h
    split at h
    · exact absurd h (by simp)
    · injection h with h'
      rw [← h']
      exact ⟨rfl, rfl, rfl⟩
  | selectExists sp =>
    simp only [runStmt] at h
    split at h
    · exact absurd h (by simp)
    · injection h with h'
      rw [← h']
      exact ⟨rfl, rfl, rfl⟩
  | insertPrompt a b c =>
    simp only [runStmt] at h
    split at h
    · exact absurd h (by simp)
    · split at h
      · exact absurd h (by simp)
      · injection h with h'
        rw [← h']
        exact ⟨rfl, rfl, rfl⟩

/-- Helper: the connection body never changes a directory flag. -/
theorem execQueryConn_dir (env : Env) (st : DBState) (w w' : Which) (stmt : Stmt)
    (f1 f2 c : Bool) :
    dirExistsOf (execQueryConn env st w stmt f1 f2 c).1 w' = dirExistsOf st w' := by
  unfold execQueryConn
  split
  · rfl
  · rcases hr : runStmt { st with now := st.now + 1 } w stmt with msg | out
    · simp only [hr]
    · simp only [hr]
      have hd := runStmt_ok_state _ _ _ _ hr
      cases w' <;> split_ifs <;>
        simp [dirExistsOf, hd.1, hd.2.1]

/-- C3: if the store path has a parent directory and it is absent,
`_execute_query` creates it before the store is touched — whatever
happens later in the call, the directory exists in the resulting
state — and if creation fails the error is raised immediately: the
state is returned untouched (no store access, no time passes) and the
outcome is a propagated `dirError`, not a return value. -/
theorem C3_directory_provisioning
    (env : Env) (st : DBState) (w : Which) (stmt : Stmt) (f1 f2 c : Bool)
    (hname : dirNameOf env w ≠ "") (habsent : dirExistsOf st w = false) :
    (env.mkdirFails = true →
      execQuery env st w stmt f1 f2 c = (st, .error .dirError))
    ∧ (env.mkdirFails = false →
      dirExistsOf (execQuery env st w stmt f1 f2 c).1 w = true) := by
  constructor
  · intro hmk
    exact execQuery_mkdirFails env st w stmt f1 f2 c hname habsent hmk
  · intro hmk
    rw [execQuery_provision env st w stmt f1 f2 c (Or.inl hmk)]
    have hprov : provisionedState env st w = setDirExists st w := by
      simp [provisionedState, hname, habsent]
    rw [hprov, execQueryConn_dir]
    cases w <;> simp [setDirExists, dirExistsOf]

/-- Witness for C3: with the reports directory absent, a failing
`makedirs` aborts the call untouched, and a succeeding one leaves the
directory created. -/
theorem C3_directory_provisioning_witness :
    (execQuery envMkdirFail stNoDir .reports (.selectExists "/p") true false false =
      (stNoDir, .error .dirError))
    ∧ dirExistsOf (execQuery env0 stNoDir .reports (.selectExists "/p") true false false).1
        .reports = true :=
  ⟨(C3_directory_provisioning envMkdirFail stNoDir .reports (.selectExists "/p")
      true false false (by decide) rfl).1 rfl,
   (C3_directory_provisioning env0 stNoDir .reports (.selectExists "/p")
      true false false (by decide) rfl).2 rfl⟩

/-- Helper: full inversion of a successful connection body. -/
theorem execQueryConn_ok_inversion (env : Env) (st : DBState) (w : Which) (stmt : Stmt)
    (f1 f2 c : Bool) (st' : DBState) (v : PyVal)
    (h : execQueryConn env st w stmt f1 f2 c = (st', .ok v)) :
    env.execFails = false ∧ ∃ out, runStmt { st with now := st.now + 1 } w stmt = .ok out ∧
      st' = (if c then out.st else { st with now := st.now + 1 }) ∧
      v = (if c then commitVal stmt out
           else if f1 then fetchOneVal out
           else if f2 then PyVal.rows out.rows
           else PyVal.none) := by
  by_cases hexec : env.execFails = true
  · rw [show execQueryConn env st w stmt f1 f2 c = (st, .error .queryError) from by
      simp [execQueryConn, hexec]] at h
    simp at h
  · have hfe : env.execFails = false := by simpa using hexec
    rcases hr : runStmt { st with now := st.now + 1 } w stmt with msg | out
    · rw [show execQueryConn env st w stmt f1 f2 c = (st, .error .queryError) from by
        simp [execQueryConn, hfe, hr]] at h
      simp at h
    · have hrw := execQueryConn_ok env st w stmt f1 f2 c out hfe hr
      rw [hrw] at h
      have h1 := congrArg Prod.fst h
      have h2 := congrArg Prod.snd h
      simp only at h1 h2
      exact ⟨hfe, out, rfl, h1.symm, (Except.ok.inj h2).symm⟩

/-- Helper: full inversion of a successful `_execute_query` call. -/
theorem execQuery_ok_inversion (env : Env) (st : DBState) (w : Which) (stmt : Stmt)
    (f1 f2 c : Bool) (st' : DBState) (v : PyVal)
    (h : execQuery env st w stmt f1 f2 c = (st', .ok v)) :
    env.execFails = false ∧ ∃ out, runStmt (afterConnect env st w) w stmt = .ok out ∧
      st' = (if c then out.st else afterConnect env st w) ∧
      v = (if c then commitVal stmt out
           else if f1 then fetchOneVal out
           else if f2 then PyVal.rows out.rows
           else PyVal.none) := by
  unfold execQuery at h
  split at h
  case isTrue hcond =>
    split at h
    · simp at h
    case isFalse hmk =>
      obtain ⟨hfe, out, heq, h1, h2⟩ :=
        execQueryConn_ok_inversion env (setDirExists st w) w stmt f1 f2 c st' v h
      have hac : afterConnect env st w =
          { setDirExists st w with now := (setDirExists st w).now + 1 } := by
        simp [afterConnect, provisionedState, if_pos hcond]
      rw [← hac] at heq h1
      exact ⟨hfe, out, heq, h1, h2⟩
  case isFalse hcond =>
    obtain ⟨hfe, out, heq, h1, h2⟩ :=
      execQueryConn_ok_inversion env st w stmt f1 f2 c st' v h
    have hac : afterConnect env st w = { st with now := st.now + 1 } := by
      simp [afterConnect, provisionedState, if_neg hcond]
    rw [← hac] at heq h1
    exact ⟨hfe, out, heq, h1, h2⟩

/-- C2 counterexample: the claim asserts directory-provisioning
failures keep propagating to callers of repository methods; but
`insert_report_data` catches the bare `Exception` re-raised for the
`makedirs` failure and converts it to `None` exactly like any other
error, so the very error the executor raises (first conjunct) reaches
the repository caller as a plain return value (second conjunct). -/
theorem C2_dir_error_swallowed_by_repository :
    (execQuery envMkdirFail stNoDir .reports
        (.insertReport "f" Option.none "/p" Option.none "s") false false true =
      (stNoDir, .error .dirError))
    ∧ insert_report_data envMkdirFail stNoDir "f" Option.none "/p" Option.none "s" =
        (stNoDir, Option.none) :=
  ⟨rfl, rfl⟩

/-- C2 (amended): the Query Executor never swallows an execution
error — a successful result certifies that no fault occurred, every
fault surfaces as a raised error — and every repository write method
catches every raised error, directory-provisioning failures included,
converting it to `None`/`False`; no raised error propagates out of the
write methods. -/
theorem C2_error_translation (env : Env) (st : DBState)
    (ofn : String) (ct : Option String) (sp : String) (md : Option JObj)
    (stat : String) (pc : Option String) (rid : Int) (aj : String)
    (nm tt : String) (cat : Option String) (u : JObj) :
    (∀ (w : Which) (stmt : Stmt) (f1 f2 c : Bool) (st' : DBState) (v : PyVal),
      execQuery env st w stmt f1 f2 c = (st', .ok v) →
        env.execFails = false ∧ ∃ out, runStmt (afterConnect env st w) w stmt = .ok out)
    ∧ (∀ (e : DalError) (st' : DBState),
        execQuery env st .reports
            (.insertReport ofn ct sp (metadataStrOf md) stat) false false true =
          (st', .error e) →
        insert_report_data env st ofn ct sp md stat = (st', Option.none))
    ∧ (∀ (e : DalError) (st' : DBState),
        execQuery env st .reports (.updateStatus stat pc rid) false false true =
          (st', .error e) →
        update_report_status env st rid stat pc = (st', false))
    ∧ (∀ (e : DalError) (st' : DBState),
        execQuery env st .reports (.updateAnalysis aj stat rid) false false true =
          (st', .error e) →
        update_report_analysis env st rid aj stat = (st', false))
    ∧ (∀ (e : DalError) (st' : DBState),
        execQuery env st .prompts (.insertPrompt nm tt cat) false false true =
          (st', .error e) →
        insert_prompt_template env st nm tt cat = (st', Option.none))
    ∧ (env.execFails = true →
        ((update_report_metadata env st rid u).2).toBool = false) := by
  refine ⟨?_, ?_, ?_, ?_, ?_, ?_⟩
  · intro w stmt f1 f2 c st' v h
    exact execQuery_ok_no_fault env st w stmt f1 f2 c st' v h
  · intro e st' h
    simp [insert_report_data, h]
  · intro e st' h
    simp [update_report_status, h]
  · intro e st' h
    simp [update_report_analysis, h]
  · intro e st' h
    simp [insert_prompt_template, h]
  · intro hexec
    have hget : get_report_by_id env st rid = (st, Option.none) := by
      simp [get_report_by_id, hexec]
    simp [update_report_metadata, hget, MetaResult.toBool]

/-- Witness for C2 (amended) at concrete faulty inputs: with
`execFails` injected the executor raises and each write method returns
its failure value. -/
theorem C2_error_translation_witness :
    insert_report_data envExecFail st0 "f" Option.none "/p" Option.none "s" =
      (st0, Option.none)
    ∧ update_report_status envExecFail st0 1 "done" Option.none = (st0, false)
    ∧ update_report_analysis envExecFail st0 1 "a" "done" = (st0, false)
    ∧ insert_prompt_template envExecFail st0 "n" "t" Option.none = (st0, Option.none)
    ∧ ((update_report_metadata envExecFail st0 1 []).2).toBool = false := by
  have h := C2_error_translation envExecFail st0 "f" Option.none "/p" Option.none
    "s" Option.none 1 "a" "n" "t" Option.none []
  exact ⟨h.2.1 .queryError st0 rfl,
         h.2.2.1 .queryError st0 rfl,
         h.2.2.2.1 .queryError st0 rfl,
         h.2.2.2.2.1 .queryError st0 rfl,
         h.2.2.2.2.2 rfl⟩

/-- Helper: with a creatable directory, any executor-backed call leaves
the store's parent directory existing (provisioned if it was absent). -/
theorem execQuery_dir_after (env : Env) (st : DBState) (w : Which) (stmt : Stmt)
    (f1 f2 c : Bool)
    (hmk : env.mkdirFails = false) (hname : dirNameOf env w ≠ "") :
    dirExistsOf (execQuery env st w stmt f1 f2 c).1 w = true := by
  rw [execQuery_provision env st w stmt f1 f2 c (Or.inl hmk), execQueryConn_dir]
  unfold provisionedState
  by_cases hc : dirNameOf env w ≠ "" ∧ dirExistsOf st w = false
  · rw [if_pos hc]
    cases w <;> simp [setDirExists, dirExistsOf]
  · rw [if_neg hc]
    cases hbe : dirExistsOf st w
    · exact absurd ⟨hname, hbe⟩ hc
    · rfl

/-- Helper: the state component of `insert_report_data` is that of its
executor call. -/
theorem insert_report_data_fst (env : Env) (st : DBState) (ofn : String)
    (ct : Option String) (sp : String) (md : Option JObj) (stat : String) :
    (insert_report_data env st ofn ct sp md stat).1 =
      (execQuery env st .reports
        (.insertReport ofn ct sp (metadataStrOf md) stat) false false true).1 := by
  unfold insert_report_data
  rcases hq : execQuery env st .reports
    (.insertReport ofn ct sp (metadataStrOf md) stat) false false true with ⟨st', r⟩
  rcases r with e | v
  · simp [hq]
  · cases v <;> simp [hq]

/-- Helper: the state component of `update_report_status` is that of
its executor call. -/
theorem update_report_status_fst (env : Env) (st : DBState) (rid : Int)
    (stat : String) (pc : Option String) :
    (update_report_status env st rid stat pc).1 =
      (execQuery env st .reports (.updateStatus stat pc rid) false false true).1 := by
  unfold update_report_status
  rcases hq : execQuery env st .reports (.updateStatus stat pc rid)
    false false true with ⟨st', r⟩
  rcases r with e | v
  · simp [hq]
  · simp [hq]

/-- Helper: the state component of `update_report_analysis` is that of
its executor call. -/
theorem update_report_analysis_fst (env : Env) (st : DBState) (rid : Int)
    (aj : String) (stat : String) :
    (update_report_analysis env st rid aj stat).1 =
      (execQuery env st .reports (.updateAnalysis aj stat rid) false false true).1 := by
  unfold update_report_analysis
  rcases hq : execQuery env st .reports (.updateAnalysis aj stat rid)
    false false true with ⟨st', r⟩
  rcases r with e | v
  · simp [hq]
  · simp [hq]

/-- Helper: the state component of the existence check is that of its
executor call. -/
theorem check_report_exists_fst (env : Env) (st : DBState) (sp : String) :
    (check_report_exists_by_source_path env st sp).1 =
      (execQuery env st .reports (.selectExists sp) true false false).1 := by
  unfold check_report_exists_by_source_path
  rcases hq : execQuery env st .reports (.selectExists sp)
    true false false with ⟨st', r⟩
  rcases r with e | v
  · simp [hq]
  · simp [hq]

/-- Helper: the state component of `insert_prompt_template` is that of
its executor call. -/
theorem insert_prompt_template_fst (env : Env) (st : DBState) (nm tt : String)
    (cat : Option String) :
    (insert_prompt_template env st nm tt cat).1 =
      (execQuery env st .prompts (.insertPrompt nm tt cat) false false true).1 := by
  unfold insert_prompt_template
  rcases hq : execQuery env st .prompts (.insertPrompt nm tt cat)
    false false true with ⟨st', r⟩
  rcases r with e | v
  · simp [hq]
  · cases v <;> simp [hq]

/-- C5 counterexample: in a state holding report id 1 whose parent
directory is absent (and perfectly creatable — no fault injected), the
claim implies `get_report_by_id` provisions the directory and returns
the row; instead it opens its connection directly, fails, returns the
absent marker, and leaves the directory uncreated — while an executor
call in the same state does provision it. -/
theorem C5_reads_bypass_executor :
    (stNoDirR.reports.find? (fun r => r.id = 1)).isSome = true
    ∧ stNoDirR.reportsDirExists = false
    ∧ env0.mkdirFails = false
    ∧ get_report_by_id env0 stNoDirR 1 = (stNoDirR, Option.none)
    ∧ (execQuery env0 stNoDirR .reports (.selectExists "/in/f.docx")
        true false false).1.reportsDirExists = true :=
  ⟨rfl, rfl, rfl, rfl, rfl⟩

/-- C5 (amended): the write operations and the existence check do pass
through the Query Executor and so provision the storage directory when
absent; but `get_report_by_id`, `get_prompt_template_by_name` and
`get_all_prompt_templates` open direct connections — they never change
the directory flags, and with the directory absent they degrade to the
absent/empty result instead of provisioning. -/
theorem C5_chokepoint_amended (env : Env) (st : DBState)
    (ofn : String) (ct : Option String) (sp : String) (md : Option JObj)
    (stat : String) (pc : Option String) (rid : Int) (aj : String)
    (nm tt : String) (cat : Option String) (lim off : Nat)
    (hmk : env.mkdirFails = false) :
    (env.reportsDirName ≠ "" →
      (insert_report_data env st ofn ct sp md stat).1.reportsDirExists = true)
    ∧ (env.reportsDirName ≠ "" →
        (update_report_status env st rid stat pc).1.reportsDirExists = true)
    ∧ (env.reportsDirName ≠ "" →
        (update_report_analysis env st rid aj stat).1.reportsDirExists = true)
    ∧ (env.reportsDirName ≠ "" →
        (check_report_exists_by_source_path env st sp).1.reportsDirExists = true)
    ∧ (env.promptsDirName ≠ "" →
        (insert_prompt_template env st nm tt cat).1.promptsDirExists = true)
    ∧ ((get_report_by_id env st rid).1.reportsDirExists = st.reportsDirExists)
    ∧ ((get_prompt_template_by_name env st nm).1.promptsDirExists = st.promptsDirExists)
    ∧ ((get_all_prompt_templates env st lim off).1.promptsDirExists = st.promptsDirExists)
    ∧ (env.reportsDirName ≠ "" → st.reportsDirExists = false →
        (get_report_by_id env st rid).2 = Option.none)
    ∧ (env.promptsDirName ≠ "" → st.promptsDirExists = false →
        (get_prompt_template_by_name env st nm).2 = Option.none)
    ∧ (env.promptsDirName ≠ "" → st.promptsDirExists = false →
        (get_all_prompt_templates env st lim off).2 = []) := by
  refine ⟨?_, ?_, ?_, ?_, ?_, ?_, ?_, ?_, ?_, ?_, ?_⟩
  · intro hname
    rw [insert_report_data_fst]
    exact execQuery_dir_after env st .reports _ false false true hmk hname
  · intro hname
    rw [update_report_status_fst]
    exact execQuery_dir_after env st .reports _ false false true hmk hname
  · intro hname
    rw [update_report_analysis_fst]
    exact execQuery_dir_after env st .reports _ false false true hmk hname
  · intro hname
    rw [check_report_exists_fst]
    exact execQuery_dir_after env st .reports _ true false false hmk hname
  · intro hname
    rw [insert_prompt_template_fst]
    exact execQuery_dir_after env st .prompts _ false false true hmk hname
  · unfold get_report_by_id
    split_ifs <;> rfl
  · unfold get_prompt_template_by_name
    split_ifs <;> rfl
  · unfold get_all_prompt_templates
    split_ifs <;> rfl
  · intro hname hfalse
    simp [get_report_by_id, dirNameOf, hname, hfalse]
  · intro hname hfalse
    simp [get_prompt_template_by_name, dirNameOf, hname, hfalse]
  · intro hname hfalse
    simp [get_all_prompt_templates, dirNameOf, hname, hfalse]

/-- Witness for C5 (amended) on a concrete dirless state: the write
path provisions, the read path degrades. -/
theorem C5_chokepoint_amended_witness :
    ((insert_report_data env0 stNoDir "f" Option.none "/p" Option.none "s").1.reportsDirExists
      = true)
    ∧ (get_report_by_id env0 stNoDir 1).2 = Option.none
    ∧ (get_all_prompt_templates env0 stNoDir 100 0).2 = [] := by
  have h := C5_chokepoint_amended env0 stNoDir "f" Option.none "/p" Option.none
    "s" Option.none 1 "a" "n" "t" Option.none 100 0 rfl
  exact ⟨h.1 (by decide),
         h.2.2.2.2.2.2.2.2.1 (by decide) rfl,
         h.2.2.2.2.2.2.2.2.2.2 (by decide) rfl⟩

/-- Helper: provisioning and connecting only tick the clock and
possibly set a directory flag. -/
theorem afterConnect_fields (env : Env) (st : DBState) (w : Which) :
    (afterConnect env st w).reports = st.reports ∧
    (afterConnect env st w).prompts = st.prompts ∧
    (afterConnect env st w).nextReportId = st.nextReportId ∧
    (afterConnect env st w).nextPromptId = st.nextPromptId ∧
    (afterConnect env st w).now = st.now + 1 := by
  unfold afterConnect provisionedState
  split_ifs <;> cases w <;> simp [setDirExists]

/-- Helper: a directory flag that is already set survives
`afterConnect`. -/
theorem afterConnect_reports_dir (env : Env) (st : DBState) (w : Which)
    (h : st.reportsDirExists = true) :
    (afterConnect env st w).reportsDirExists = true := by
  unfold afterConnect provisionedState
  split_ifs <;> cases w <;> simp [setDirExists, h]

/-- Helper: mapping an id-targeted update over rows without that id is
the identity. -/
theorem map_update_of_no_match (l : List ReportRow) (rid : Int)
    (g : ReportRow → ReportRow) (h : ∀ r ∈ l, r.id ≠ rid) :
    l.map (fun r => if r.id = rid then g r else r) = l := by
  induction l with
  | nil => rfl
  | cons x xs ih =>
    simp only [List.map_cons]
    rw [if_neg (h x (by simp)), ih (fun r hr => h r (by simp [hr]))]

/-- Helper: `find?` by id after an id-preserving targeted update finds
the updated row. -/
theorem find?_map_update (l : List ReportRow) (rid : Int)
    (g : ReportRow → ReportRow) (hg : ∀ x, (g x).id = x.id) (r : ReportRow)
    (h : l.find? (fun x => x.id = rid) = some r) :
    (l.map (fun x => if x.id = rid then g x else x)).find?
      (fun x => x.id = rid) = some (g r) := by
  induction l with
  | nil => simp at h
  | cons x xs ih =>
    by_cases hx : x.id = rid
    · rw [List.find?_cons_of_pos _ (by simp [hx])] at h
      have hr : x = r := by simpa using h
      subst hr
      simp only [List.map_cons, if_pos hx]
      exact List.find?_cons_of_pos _ (by simp [hg, hx])
    · rw [List.find?_cons_of_neg _ (by simp [hx])] at h
      simp only [List.map_cons, if_neg hx]
      rw [List.find?_cons_of_neg _ (by simp [hx])]
      exact ih h

/-- Helper: `find?` by id on a list extended with a fresh id finds the
new row. -/
theorem find?_append_fresh (l : List ReportRow) (x : ReportRow) (rid : Int)
    (h : ∀ r ∈ l, r.id ≠ rid) (hx : x.id = rid) :
    (l ++ [x]).find? (fun r => r.id = rid) = some x := by
  induction l with
  | nil => simp [List.find?, hx]
  | cons y ys ih =>
    rw [List.cons_append, List.find?_cons_of_neg _ (by simp [h y (by simp)])]
    exact ih (fun r hr => h r (by simp [hr]))

/-- Helper: with the execution fault injected, every executor call
raises. -/
theorem execQuery_execFails_errors (env : Env) (st : DBState) (w : Which)
    (stmt : Stmt) (f1 f2 c : Bool) (hexec : env.execFails = true) :
    ∃ e st', execQuery env st w stmt f1 f2 c = (st', .error e) := by
  unfold execQuery
  by_cases hc : dirNameOf env w ≠ "" ∧ dirExistsOf st w = false
  · rw [if_pos hc]
    by_cases hmk : env.mkdirFails = true
    · rw [if_pos hmk]
      exact ⟨.dirError, st, rfl⟩
    · rw [if_neg hmk]
      unfold execQueryConn
      rw [if_pos hexec]
      exact ⟨.queryError, _, rfl⟩
  · rw [if_neg hc]
    unfold execQueryConn
    rw [if_pos hexec]
    exact ⟨.queryError, _, rfl⟩

/-- Helper: fault-free evaluation of the existence check. -/
theorem check_exists_eval (env : Env) (st : DBState) (sp : String)
    (hexec : env.execFails = false)
    (hdir : st.reportsDirExists = true ∨ env.mkdirFails = false) :
    (check_report_exists_by_source_path env st sp).2 =
      st.reports.any (fun r => r.source_path = sp) := by
  have hdir' : env.mkdirFails = false ∨ dirExistsOf st .reports = true ∨
      dirNameOf env .reports = "" := by
    rcases hdir with h | h
    · exact Or.inr (Or.inl h)
    · exact Or.inl h
  have hq := execQuery_ok env st .reports (.selectExists sp) true false false
    { st := afterConnect env st .reports, lastId := Option.none,
      rows := if (afterConnect env st .reports).reports.any
          (fun r => r.source_path = sp) then [[Val.int 1]] else [] }
    hexec hdir' rfl
  unfold check_report_exists_by_source_path
  rw [hq]
  by_cases hany : st.reports.any (fun r => r.source_path = sp) = true
  · simp [fetchOneVal, (afterConnect_fields env st .reports).1, hany]
  · have hf : st.reports.any (fun r => r.source_path = sp) = false := by
      simpa using hany
    simp [fetchOneVal, (afterConnect_fields env st .reports).1, hf]

/-- Helper: fault-free evaluation of `insert_report_data`. -/
theorem insert_report_data_ok (env : Env) (st : DBState) (ofn : String)
    (ct : Option String) (sp : String) (md : Option JObj) (stat : String)
    (hexec : env.execFails = false)
    (hdir : st.reportsDirExists = true ∨ env.mkdirFails = false) :
    insert_report_data env st ofn ct sp md stat =
      ({ afterConnect env st .reports with
         reports := st.reports ++
           [{ id := st.nextReportId, original_filename := ofn, content := ct,
              source_path := sp, processed_at := st.now + 1, status := stat,
              metadata := metadataStrOf md, analysis_json := Option.none }],
         nextReportId := st.nextReportId + 1 },
       some st.nextReportId) := by
  have hdir' : env.mkdirFails = false ∨ dirExistsOf st .reports = true ∨
      dirNameOf env .reports = "" := by
    rcases hdir with h | h
    · exact Or.inr (Or.inl h)
    · exact Or.inl h
  obtain ⟨e1, e2, e3, e4, e5⟩ := afterConnect_fields env st .reports
  have hq := execQuery_ok env st .reports
    (.insertReport ofn ct sp (metadataStrOf md) stat) false false true
    { st := { afterConnect env st .reports with
              reports := (afterConnect env st .reports).reports ++
                [{ id := (afterConnect env st .reports).nextReportId,
                   original_filename := ofn, content := ct, source_path := sp,
                   processed_at := (afterConnect env st .reports).now,
                   status := stat, metadata := metadataStrOf md,
                   analysis_json := Option.none }],
              nextReportId := (afterConnect env st .reports).nextReportId + 1 },
      lastId := some (afterConnect env st .reports).nextReportId, rows := [] }
    hexec hdir' rfl
  have hins : isInsertSQL
      (stmtSQL (.insertReport ofn ct sp (metadataStrOf md) stat)) = true := by
    simp only [stmtSQL]
    decide
  rw [e1, e3, e5] at hq
  simp [insert_report_data, hq, commitVal, hins]

/-- Helper: fault-free evaluation of `update_report_status`. -/
theorem update_report_status_ok (env : Env) (st : DBState) (rid : Int)
    (stat : String) (pc : Option String)
    (hexec : env.execFails = false)
    (hdir : st.reportsDirExists = true ∨ env.mkdirFails = false) :
    update_report_status env st rid stat pc =
      ({ afterConnect env st .reports with
         reports := st.reports.map (fun r =>
           if r.id = rid then
             { r with status := stat,
                      content := match pc with
                                 | some c => some c
                                 | Option.none => r.content,
                      processed_at := st.now + 1 }
           else r) },
       true) := by
  have hdir' : env.mkdirFails = false ∨ dirExistsOf st .reports = true ∨
      dirNameOf env .reports = "" := by
    rcases hdir with h | h
    · exact Or.inr (Or.inl h)
    · exact Or.inl h
  obtain ⟨e1, e2, e3, e4, e5⟩ := afterConnect_fields env st .reports
  have hq := execQuery_ok env st .reports (.updateStatus stat pc rid)
    false false true
    { st := { afterConnect env st .reports with
              reports := (afterConnect env st .reports).reports.map (fun r =>
                if r.id = rid then
                  { r with status := stat,
                           content := match pc with
                                      | some c => some c
                                      | Option.none => r.content,
                           processed_at := (afterConnect env st .reports).now }
                else r) },
      lastId := Option.none, rows := [] }
    hexec hdir' rfl
  rw [e1, e5] at hq
  simp [update_report_status, hq]

/-- Helper: fault-free evaluation of `update_report_analysis`. -/
theorem update_report_analysis_ok (env : Env) (st : DBState) (rid : Int)
    (aj : String) (stat : String)
    (hexec : env.execFails = false)
    (hdir : st.reportsDirExists = true ∨ env.mkdirFails = false) :
    update_report_analysis env st rid aj stat =
      ({ afterConnect env st .reports with
         reports := st.reports.map (fun r =>
           if r.id = rid then
             { r with analysis_json := some aj, status := stat,
                      processed_at := st.now + 1 }
           else r) },
       true) := by
  have hdir' : env.mkdirFails = false ∨ dirExistsOf st .reports = true ∨
      dirNameOf env .reports = "" := by
    rcases hdir with h | h
    · exact Or.inr (Or.inl h)
    · exact Or.inl h
  obtain ⟨e1, e2, e3, e4, e5⟩ := afterConnect_fields env st .reports
  have hq := execQuery_ok env st .reports (.updateAnalysis aj stat rid)
    false false true
    { st := { afterConnect env st .reports with
              reports := (afterConnect env st .reports).reports.map (fun r =>
                if r.id = rid then
                  { r with analysis_json := some aj, status := stat,
                           processed_at := (afterConnect env st .reports).now }
                else r) },
      lastId := Option.none, rows := [] }
    hexec hdir' rfl
  rw [e1, e5] at hq
  simp [update_report_analysis, hq]

/-- Helper: fault-free evaluation of `get_report_by_id`. -/
theorem get_report_by_id_eval (env : Env) (st : DBState) (rid : Int)
    (hexec : env.execFails = false) (hdirE : st.reportsDirExists = true) :
    get_report_by_id env st rid =
      ({ st with now := st.now + 1 },
       st.reports.find? (fun r => r.id = rid)) := by
  unfold get_report_by_id
  rw [if_neg (by simp [hdirE]), if_neg (by simp [hexec])]

/-- C8: `check_report_exists_by_source_path` is true exactly when some
stored row carries that exact source path — in particular true right
after an insert with that path — and a failing check degrades to
`false`, indistinguishable from no-match through the return value. -/
theorem C8_exists_by_source_path (env env' : Env) (st : DBState) (sp : String)
    (ofn : String) (ct : Option String) (md : Option JObj) (stat : String)
    (hexec : env.execFails = false)
    (hdir : st.reportsDirExists = true ∨ env.mkdirFails = false)
    (hexec' : env'.execFails = true) :
    ((check_report_exists_by_source_path env st sp).2 = true ↔
      ∃ r ∈ st.reports, r.source_path = sp)
    ∧ (check_report_exists_by_source_path env
        (insert_report_data env st ofn ct sp md stat).1 sp).2 = true
    ∧ (check_report_exists_by_source_path env' st sp).2 = false := by
  refine ⟨?_, ?_, ?_⟩
  · rw [check_exists_eval env st sp hexec hdir]
    simp [List.any_eq_true]
  · have hI := insert_report_data_ok env st ofn ct sp md stat hexec hdir
    have hdir₁ : (insert_report_data env st ofn ct sp md stat).1.reportsDirExists = true ∨
        env.mkdirFails = false := by
      rcases hdir with hex | hmk
      · left
        rw [hI]
        exact afterConnect_reports_dir env st .reports hex
      · exact Or.inr hmk
    rw [check_exists_eval env _ sp hexec hdir₁, hI]
    simp
  · obtain ⟨e, st'', hq⟩ := execQuery_execFails_errors env' st .reports
      (.selectExists sp) true false false hexec'
    simp [check_report_exists_by_source_path, hq]

/-- Witness for C8 on the one-report fixture. -/
theorem C8_exists_by_source_path_witness :
    ((check_report_exists_by_source_path env0 stR1 "/in/f.docx").2 = true ↔
      ∃ r ∈ stR1.reports, r.source_path = "/in/f.docx")
    ∧ (check_report_exists_by_source_path env0
        (insert_report_data env0 stR1 "g" Option.none "/in/f.docx" Option.none "s").1
        "/in/f.docx").2 = true
    ∧ (check_report_exists_by_source_path envExecFail stR1 "/in/f.docx").2 = false :=
  C8_exists_by_source_path env0 envExecFail stR1 "/in/f.docx" "g" Option.none
    Option.none "s" rfl (Or.inl rfl) rfl

/-- C10: updating a report id with no matching row still returns the
success value `True` from both `update_report_status` and
`update_report_analysis` — the statement matches zero rows and executes
without error, leaving the table unchanged — so the boolean signals
only that the statement executed, not that any record was modified. -/
theorem C10_update_missing_id_returns_true (env : Env) (st : DBState) (rid : Int)
    (stat : String) (pc : Option String) (aj : String)
    (hexec : env.execFails = false)
    (hdir : st.reportsDirExists = true ∨ env.mkdirFails = false)
    (hmiss : ∀ r ∈ st.reports, r.id ≠ rid) :
    (update_report_status env st rid stat pc).2 = true
    ∧ (update_report_status env st rid stat pc).1.reports = st.reports
    ∧ (update_report_analysis env st rid aj stat).2 = true
    ∧ (update_report_analysis env st rid aj stat).1.reports = st.reports := by
  refine ⟨?_, ?_, ?_, ?_⟩
  · rw [update_report_status_ok env st rid stat pc hexec hdir]
  · rw [update_report_status_ok env st rid stat pc hexec hdir]
    exact map_update_of_no_match st.reports rid _ hmiss
  · rw [update_report_analysis_ok env st rid aj stat hexec hdir]
  · rw [update_report_analysis_ok env st rid aj stat hexec hdir]
    exact map_update_of_no_match st.reports rid _ hmiss

/-- Witness for C10: id 99 matches nothing in the one-report fixture,
both updates report success and change nothing. -/
theorem C10_update_missing_id_returns_true_witness :
    (update_report_status env0 stR1 99 "x" Option.none).2 = true
    ∧ (update_report_status env0 stR1 99 "x" Option.none).1.reports = stR1.reports
    ∧ (update_report_analysis env0 stR1 99 "a" "x").2 = true
    ∧ (update_report_analysis env0 stR1 99 "a" "x").1.reports = stR1.reports :=
  C10_update_missing_id_returns_true env0 stR1 99 "x" Option.none "a"
    rfl (Or.inl rfl) (by decide)

/-- C9: inserting with the empty metadata map stores NULL in the
metadata column — Python truthiness makes `json.dumps(metadata) if
metadata else None` skip serialization for `\x7b\x7d` — so the call is
indistinguishable from inserting with no metadata at all, and a
subsequent `get_report_by_id` returns an absent metadata value. -/
theorem C9_empty_metadata_as_null (env : Env) (st : DBState) (ofn : String)
    (ct : Option String) (sp : String) (stat : String)
    (hexec : env.execFails = false)
    (hdirE : st.reportsDirExists = true)
    (hfresh : ∀ r ∈ st.reports, r.id ≠ st.nextReportId) :
    insert_report_data env st ofn ct sp (some []) stat =
      insert_report_data env st ofn ct sp Option.none stat
    ∧ metadataStrOf (some []) = Option.none
    ∧ (get_report_by_id env
        (insert_report_data env st ofn ct sp (some []) stat).1
        st.nextReportId).2 = some
          { id := st.nextReportId, original_filename := ofn, content := ct,
            source_path := sp, processed_at := st.now + 1, status := stat,
            metadata := Option.none, analysis_json := Option.none } := by
  refine ⟨rfl, rfl, ?_⟩
  have hI := insert_report_data_ok env st ofn ct sp (some []) stat hexec (Or.inl hdirE)
  have hdir₁ : (insert_report_data env st ofn ct sp (some []) stat).1.reportsDirExists
      = true := by
    rw [hI]
    exact afterConnect_reports_dir env st .reports hdirE
  rw [get_report_by_id_eval env
    ((insert_report_data env st ofn ct sp (some []) stat).1)
    st.nextReportId hexec hdir₁]
  show ((insert_report_data env st ofn ct sp (some []) stat).1).reports.find? _ = _
  rw [hI]
  exact find?_append_fresh st.reports _ st.nextReportId hfresh rfl

/-- Witness for C9 on the fresh-database fixture. -/
theorem C9_empty_metadata_as_null_witness :
    insert_report_data env0 st0 "f" Option.none "/p" (some []) "s" =
      insert_report_data env0 st0 "f" Option.none "/p" Option.none "s"
    ∧ metadataStrOf (some []) = Option.none
    ∧ (get_report_by_id env0
        (insert_report_data env0 st0 "f" Option.none "/p" (some []) "s").1 1).2 = some
          { id := 1, original_filename := "f", content := Option.none,
            source_path := "/p", processed_at := 1, status := "s",
            metadata := Option.none, analysis_json := Option.none } :=
  C9_empty_metadata_as_null env0 st0 "f" Option.none "/p" "s" rfl rfl (by decide)

/-- C7: after a successful `update_report_status(id, s)` on an existing
report, `get_report_by_id(id)` returns that row with status `s`, a
`processed_at` refreshed to the update's connection time — strictly
greater than the value stored before the call — and content updated
exactly when a non-absent content argument was supplied (preserved
otherwise). -/
theorem C7_update_status_then_get (env : Env) (st : DBState) (rid : Int)
    (s : String) (pc : Option String) (r : ReportRow)
    (hexec : env.execFails = false)
    (hdirE : st.reportsDirExists = true)
    (hfind : st.reports.find? (fun x => x.id = rid) = some r)
    (hclock : r.processed_at ≤ st.now) :
    (update_report_status env st rid s pc).2 = true
    ∧ (get_report_by_id env (update_report_status env st rid s pc).1 rid).2 =
        some { r with status := s,
                      content := match pc with
                                 | some c => some c
                                 | Option.none => r.content,
                      processed_at := st.now + 1 }
    ∧ r.processed_at < st.now + 1 := by
  have hfm := find?_map_update st.reports rid
    (fun x => { x with status := s,
                       content := match pc with
                                  | some c => some c
                                  | Option.none => x.content,
                       processed_at := st.now + 1 })
    (fun x => rfl) r hfind
  have hU := update_report_status_ok env st rid s pc hexec (Or.inl hdirE)
  refine ⟨by rw [hU], ?_, by omega⟩
  have hdir₁ : (update_report_status env st rid s pc).1.reportsDirExists = true := by
    rw [hU]
    exact afterConnect_reports_dir env st .reports hdirE
  rw [get_report_by_id_eval env ((update_report_status env st rid s pc).1)
    rid hexec hdir₁]
  show ((update_report_status env st rid s pc).1).reports.find? _ = _
  rw [hU]
  exact hfm

/-- Witness for C7 on the one-report fixture, updating to status
"done" with no content supplied. -/
theorem C7_update_status_then_get_witness :
    (update_report_status env0 stR1 1 "done" Option.none).2 = true
    ∧ (get_report_by_id env0 (update_report_status env0 stR1 1 "done" Option.none).1 1).2 =
        some { id := 1, original_filename := "f.docx", content := some "body",
               source_path := "/in/f.docx", processed_at := 2, status := "done",
               metadata := some "\x7b\"a\": 1, \"b\": 2\x7d",
               analysis_json := Option.none }
    ∧ (1 : Int) < 1 + 1 :=
  C7_update_status_then_get env0 stR1 1 "done" Option.none
    { id := 1, original_filename := "f.docx", content := some "body",
      source_path := "/in/f.docx", processed_at := 1, status := "parsed",
      metadata := some "\x7b\"a\": 1, \"b\": 2\x7d",
      analysis_json := Option.none }
    rfl rfl (by decide) (by decide)

/-- Helper: fault-free evaluation of the metadata write-back executor
call. -/
theorem update_metadata_exec_ok (env : Env) (st : DBState) (mdStr : String)
    (rid : Int)
    (hexec : env.execFails = false)
    (hdir : st.reportsDirExists = true ∨ env.mkdirFails = false) :
    execQuery env st .reports (.updateMetadata mdStr rid) false false true =
      ({ afterConnect env st .reports with
         reports := st.reports.map (fun r =>
           if r.id = rid then
             { r with metadata := some mdStr, processed_at := st.now + 1 }
           else r) },
       .ok PyVal.none) := by
  have hdir' : env.mkdirFails = false ∨ dirExistsOf st .reports = true ∨
      dirNameOf env .reports = "" := by
    rcases hdir with h | h
    · exact Or.inr (Or.inl h)
    · exact Or.inl h
  obtain ⟨e1, e2, e3, e4, e5⟩ := afterConnect_fields env st .reports
  have hq := execQuery_ok env st .reports (.updateMetadata mdStr rid)
    false false true
    { st := { afterConnect env st .reports with
              reports := (afterConnect env st .reports).reports.map (fun r =>
                if r.id = rid then
                  { r with metadata := some mdStr,
                           processed_at := (afterConnect env st .reports).now }
                else r) },
      lastId := Option.none, rows := [] }
    hexec hdir' rfl
  rw [e1, e5] at hq
  have hni : isInsertSQL (stmtSQL (.updateMetadata mdStr rid)) = false := by
    simp only [stmtSQL]
    decide
  simpa [commitVal, hni] using hq

/-- C4: `update_report_metadata` reads the current record and fails
with the not-found classification when absent; otherwise it
deserializes the stored metadata (null treated as the empty map),
shallow-merges the update over it with Python `dict.update` semantics
(new keys win, others preserved), re-serializes and writes back with a
refreshed `processed_at`, returning the success value; undecodable
stored metadata yields the distinct malformed classification. All
failure classifications surface to the caller as `False`. -/
theorem C4_update_report_metadata_merge (env : Env) (st : DBState) (rid : Int)
    (u : JObj) (r : ReportRow) (m : JObj) (s : String)
    (hexec : env.execFails = false)
    (hdirE : st.reportsDirExists = true) :
    (st.reports.find? (fun x => x.id = rid) = Option.none →
      update_report_metadata env st rid u =
        ({ st with now := st.now + 1 }, .notFound))
    ∧ (st.reports.find? (fun x => x.id = rid) = some r → r.metadata = some s →
        s ≠ "" → loads s = some (.obj m) →
        (update_report_metadata env st rid u).2 = .ok ∧
        (update_report_metadata env st rid u).1.reports.find?
            (fun x => x.id = rid) =
          some { r with metadata := some (dumps (pyUpdate m u)),
                        processed_at := st.now + 2 })
    ∧ (st.reports.find? (fun x => x.id = rid) = some r →
        r.metadata = Option.none →
        (update_report_metadata env st rid u).2 = .ok ∧
        (update_report_metadata env st rid u).1.reports.find?
            (fun x => x.id = rid) =
          some { r with metadata := some (dumps (pyUpdate [] u)),
                        processed_at := st.now + 2 })
    ∧ (st.reports.find? (fun x => x.id = rid) = some r → r.metadata = some s →
        s ≠ "" → loads s = Option.none →
        update_report_metadata env st rid u =
          ({ st with now := st.now + 1 }, .malformedMetadata))
    ∧ MetaResult.toBool .notFound = false
    ∧ MetaResult.toBool .malformedMetadata = false
    ∧ MetaResult.toBool .ok = true := by
  refine ⟨?_, ?_, ?_, ?_, rfl, rfl, rfl⟩
  · intro hnone
    unfold update_report_metadata
    rw [get_report_by_id_eval env st rid hexec hdirE, hnone]
  · intro hfind hmeta hs hloads
    have hexecU := update_metadata_exec_ok env { st with now := st.now + 1 }
      (dumps (pyUpdate m u)) rid hexec (Or.inl hdirE)
    have heval : update_report_metadata env st rid u =
        ({ afterConnect env { st with now := st.now + 1 } .reports with
           reports := st.reports.map (fun x =>
             if x.id = rid then
               { x with metadata := some (dumps (pyUpdate m u)),
                        processed_at := st.now + 1 + 1 }
             else x) },
         .ok) := by
      unfold update_report_metadata
      rw [get_report_by_id_eval env st rid hexec hdirE, hfind]
      simp only [hmeta, if_neg hs, hloads]
      rw [hexecU]
    refine ⟨by rw [heval], ?_⟩
    rw [heval, show st.now + 2 = st.now + 1 + 1 from by omega]
    exact find?_map_update st.reports rid
      (fun x => { x with metadata := some (dumps (pyUpdate m u)),
                         processed_at := st.now + 1 + 1 })
      (fun x => rfl) r hfind
  · intro hfind hmeta
    have hexecU := update_metadata_exec_ok env { st with now := st.now + 1 }
      (dumps (pyUpdate [] u)) rid hexec (Or.inl hdirE)
    have heval : update_report_metadata env st rid u =
        ({ afterConnect env { st with now := st.now + 1 } .reports with
           reports := st.reports.map (fun x =>
             if x.id = rid then
               { x with metadata := some (dumps (pyUpdate [] u)),
                        processed_at := st.now + 1 + 1 }
             else x) },
         .ok) := by
      unfold update_report_metadata
      rw [get_report_by_id_eval env st rid hexec hdirE, hfind]
      simp only [hmeta]
      rw [hexecU]
    refine ⟨by rw [heval], ?_⟩
    rw [heval, show st.now + 2 = st.now + 1 + 1 from by omega]
    exact find?_map_update st.reports rid
      (fun x => { x with metadata := some (dumps (pyUpdate [] u)),
                         processed_at := st.now + 1 + 1 })
      (fun x => rfl) r hfind
  · intro hfind hmeta hs hloads
    unfold update_report_metadata
    rw [get_report_by_id_eval env st rid hexec hdirE, hfind]
    simp only [hmeta, if_neg hs, hloads]

/-- Witness for C4: the specified concrete merge on the fixture with
stored metadata `\x7b"a": 1, "b": 2\x7d` and update
`\x7b"b": 3, "c": 4\x7d`, the not-found case, the null-metadata case,
and the malformed-metadata case. -/
theorem C4_update_report_metadata_merge_witness :
    ((update_report_metadata env0 stR1 1 [("b", .num 3), ("c", .num 4)]).2 = .ok
      ∧ (update_report_metadata env0 stR1 1
          [("b", .num 3), ("c", .num 4)]).1.reports.find? (fun x => x.id = 1) =
        some { id := 1, original_filename := "f.docx", content := some "body",
               source_path := "/in/f.docx", processed_at := 3, status := "parsed",
               metadata := some "\x7b\"a\": 1, \"b\": 3, \"c\": 4\x7d",
               analysis_json := Option.none })
    ∧ loads "\x7b\"a\": 1, \"b\": 3, \"c\": 4\x7d" =
        some (.obj [("a", .num 1), ("b", .num 3), ("c", .num 4)])
    ∧ update_report_metadata env0 stR1 99 [("b", .num 3)] =
        ({ stR1 with now := 2 }, .notFound)
    ∧ (update_report_metadata env0 stRnoMd 1 [("k", .str "v")]).2 = .ok
    ∧ update_report_metadata env0 stBadMd 1 [("k", .str "v")] =
        ({ stBadMd with now := 2 }, .malformedMetadata) := by
  refine ⟨?_, by decide, ?_, ?_, ?_⟩
  · have h := (C4_update_report_metadata_merge env0 stR1 1
      [("b", .num 3), ("c", .num 4)]
      { id := 1, original_filename := "f.docx", content := some "body",
        source_path := "/in/f.docx", processed_at := 1, status := "parsed",
        metadata := some "\x7b\"a\": 1, \"b\": 2\x7d",
        analysis_json := Option.none }
      [("a", .num 1), ("b", .num 2)] "\x7b\"a\": 1, \"b\": 2\x7d"
      rfl rfl).2.1 (by decide) rfl (by decide) (by decide)
    exact ⟨h.1, by rw [h.2]; decide⟩
  · exact (C4_update_report_metadata_merge env0 stR1 99 [("b", .num 3)]
      { id := 0, original_filename := "", content := Option.none,
        source_path := "", processed_at := 0, status := "",
        metadata := Option.none, analysis_json := Option.none }
      [] "" rfl rfl).1 (by decide)
  · exact ((C4_update_report_metadata_merge env0 stRnoMd 1 [("k", .str "v")]
      { id := 1, original_filename := "n.txt", content := Option.none,
        source_path := "/in/n.txt", processed_at := 1, status := "s",
        metadata := Option.none, analysis_json := Option.none }
      [] "" rfl rfl).2.2.1 (by decide) rfl).1
  · exact (C4_update_report_metadata_merge env0 stBadMd 1 [("k", .str "v")]
      { id := 1, original_filename := "f.docx", content := Option.none,
        source_path := "/p", processed_at := 1, status := "s",
        metadata := some "not json", analysis_json := Option.none }
      [] "not json" rfl rfl).2.2.2.1 (by decide) rfl (by decide) (by decide)

/-- Helper: fault-free evaluation of `get_all_prompt_templates`. -/
theorem get_all_prompts_eval (env : Env) (st : DBState) (limit offset : Nat)
    (hexec : env.execFails = false) (hdirE : st.promptsDirExists = true) :
    get_all_prompt_templates env st limit offset =
      ({ st with now := st.now + 1 },
       (((sortByUpdatedDesc st.prompts).drop offset).take limit).map
         PromptRow.toListItem) := by
  unfold get_all_prompt_templates
  rw [if_neg (by simp [hdirE]), if_neg (by simp [hexec])]

/-- Helper: inserting into the descending-sorted list is a permutation
of consing. -/
theorem perm_insertByUpdatedDesc (p : PromptRow) (l : List PromptRow) :
    List.Perm (insertByUpdatedDesc p l) (p :: l) := by
  induction l with
  | nil => exact List.Perm.refl _
  | cons q qs ih =>
    unfold insertByUpdatedDesc
    split
    · exact List.Perm.refl _
    · exact (List.Perm.cons q ih).trans (List.Perm.swap p q qs)

/-- Helper: the modelled `ORDER BY` sort is a permutation of the
table. -/
theorem perm_sortByUpdatedDesc (l : List PromptRow) :
    List.Perm (sortByUpdatedDesc l) l := by
  induction l with
  | nil => exact List.Perm.refl _
  | cons p ps ih =>
    exact (perm_insertByUpdatedDesc p (sortByUpdatedDesc ps)).trans
      (List.Perm.cons p ih)

/-- Helper: insertion keeps the list sorted by `updated_at`
descending. -/
theorem sorted_insertByUpdatedDesc (p : PromptRow) (l : List PromptRow)
    (h : l.Pairwise (fun a b => b.updated_at ≤ a.updated_at)) :
    (insertByUpdatedDesc p l).Pairwise (fun a b => b.updated_at ≤ a.updated_at) := by
  induction l with
  | nil => simp [insertByUpdatedDesc]
  | cons q qs ih =>
    rcases h with _ | ⟨hq, hqs⟩
    unfold insertByUpdatedDesc
    split
    case isTrue hlt =>
      refine List.Pairwise.cons ?_ (List.Pairwise.cons hq hqs)
      intro x hx
      rcases List.mem_cons.mp hx with hxq | hxs
      · subst hxq
        omega
      · have := hq x hxs
        omega
    case isFalse hge =>
      refine List.Pairwise.cons ?_ (ih hqs)
      intro x hx
      rcases List.mem_cons.mp
          ((perm_insertByUpdatedDesc p qs).mem_iff.mp hx) with hxp | hxs
      · subst hxp
        omega
      · exact hq x hxs

/-- Helper: the modelled `ORDER BY updated_at DESC` output is sorted
descending. -/
theorem sorted_sortByUpdatedDesc (l : List PromptRow) :
    (sortByUpdatedDesc l).Pairwise (fun a b => b.updated_at ≤ a.updated_at) := by
  induction l with
  | nil => simp [sortByUpdatedDesc]
  | cons p ps ih => exact sorted_insertByUpdatedDesc p (sortByUpdatedDesc ps) ih

/-- C6: `get_all_prompt_templates` returns exactly the four-field
projections (id, name, category, updated_at) of the table sorted
most-recently-updated first, offset then limit applied; the output is
sorted descending, has at most `limit` records, the sort loses and
invents nothing (a permutation); the empty sequence is returned both
on an execution error and on a missing directory; and over the five
inserted fixtures, limit 2 with offsets 0, 2, 4 partitions the full
ordered listing into two, two and one record with no overlap and no
omission. -/
theorem C6_list_all_prompt_templates (env : Env) (st : DBState)
    (limit offset : Nat)
    (hexec : env.execFails = false)
    (hdirE : st.promptsDirExists = true) :
    ((get_all_prompt_templates env st limit offset).2 =
      (((sortByUpdatedDesc st.prompts).drop offset).take limit).map
        PromptRow.toListItem)
    ∧ ((get_all_prompt_templates env st limit offset).2.Pairwise
        (fun a b => b.updated_at ≤ a.updated_at))
    ∧ (get_all_prompt_templates env st limit offset).2.length ≤ limit
    ∧ List.Perm (sortByUpdatedDesc st.prompts) st.prompts
    ∧ (∀ env' : Env, env'.execFails = true →
        (get_all_prompt_templates env' st limit offset).2 = [])
    ∧ (∀ st' : DBState, env.promptsDirName ≠ "" →
        st'.promptsDirExists = false →
        (get_all_prompt_templates env st' limit offset).2 = [])
    ∧ ((get_all_prompt_templates env0 stP5 2 0).2.length = 2
        ∧ (get_all_prompt_templates env0 stP5 2 2).2.length = 2
        ∧ (get_all_prompt_templates env0 stP5 2 4).2.length = 1
        ∧ (get_all_prompt_templates env0 stP5 2 0).2 ++
            (get_all_prompt_templates env0 stP5 2 2).2 ++
            (get_all_prompt_templates env0 stP5 2 4).2 =
          (get_all_prompt_templates env0 stP5 100 0).2) := by
  have heval := get_all_prompts_eval env st limit offset hexec hdirE
  refine ⟨by rw [heval], ?_, ?_, perm_sortByUpdatedDesc st.prompts, ?_, ?_, ?_⟩
  · rw [heval]
    refine List.pairwise_map.mpr ?_
    exact ((sorted_sortByUpdatedDesc st.prompts).sublist
      ((List.take_sublist _ _).trans (List.drop_sublist _ _)))
  · rw [heval]
    simp only [List.length_map]
    exact List.length_take_le _ _
  · intro env' hexec'
    simp [get_all_prompt_templates, hexec']
  · intro st' hname hfalse
    unfold get_all_prompt_templates
    rw [if_pos ⟨by simpa [dirNameOf] using hname, hfalse⟩]
  · refine ⟨by decide, by decide, by decide, by decide⟩

/-- Witness for C6 on the five-template fixture with limit 2,
offset 0. -/
theorem C6_list_all_prompt_templates_witness :
    ((get_all_prompt_templates env0 stP5 2 0).2 =
      (((sortByUpdatedDesc stP5.prompts).drop 0).take 2).map
        PromptRow.toListItem)
    ∧ ((get_all_prompt_templates env0 stP5 2 0).2.Pairwise
        (fun a b => b.updated_at ≤ a.updated_at))
    ∧ (get_all_prompt_templates env0 stP5 2 0).2.length ≤ 2 := by
  have h := C6_list_all_prompt_templates env0 stP5 2 0 rfl rfl
  exact ⟨h.1, h.2.1, h.2.2.1⟩
